import Mathlib

/-!
Verification development for the mini React fiber reconciler
(`src/core/fiber.ts`, `src/core/hooks.ts`).

The JavaScript source is shallowly embedded: JS runtime values become the
inductive `JSVal` (object/array/function references are represented by a
numeric identity, so that strict equality on them is reference equality),
props objects become `JSObj` (an identity plus an association list of
fields), fiber nodes become the inductive `Fiber`, and each function of the
source becomes a Lean function of the same name.  Freshly allocated objects
are produced by threading an explicit allocation counter.
-/

namespace ReactMini

/-- JavaScript runtime values as they appear in props, keys and dependency
arrays.  `obj n` stands for any object / array / function reference with
identity `n`; `nan` is the NaN number. -/
inductive JSVal where
  | jundefined
  | jnull
  | boolean (b : Bool)
  | num (n : Int)
  | nan
  | str (s : String)
  | obj (id : Nat)
deriving DecidableEq, Repr

/-- JavaScript strict equality `===`: NaN is not equal to itself; object
references compare by identity; primitives compare by value. -/
def strictEq : JSVal → JSVal → Bool
  | .nan, _ => false
  | _, .nan => false
  | a, b => a == b

/-- JavaScript `Object.is`: like `===` except that `Object.is(NaN, NaN)`
is `true`.  (The `+0` / `-0` distinction plays no role in this code base
and is not modelled.) -/
def objectIs : JSVal → JSVal → Bool
  | .nan, .nan => true
  | a, b => strictEq a b

/-- SameValueZero, the equality used by JS `Map` keys: NaN equals NaN. -/
def sameValueZero (a b : JSVal) : Bool := objectIs a b

/-- A JS props object: a reference identity plus its own enumerable
fields in insertion order.  Two objects are `===` iff their `id`s agree. -/
structure JSObj where
  id : Nat
  fields : List (String × JSVal)
deriving DecidableEq, Repr

/-- Property read `o[k]`, yielding `undefined` for a missing key. -/
def lookupJS (o : JSObj) (k : String) : JSVal :=
  match o.fields.find? (fun p => p.1 == k) with
  | some p => p.2
  | none => .jundefined

/-- `shallowEqual(a, b)` from fiber.ts: reference equality fast path, a
falsy check (a `null` props reference on either side fails), then
key-count plus per-key `!==` comparison. -/
def shallowEqual : Option JSObj → Option JSObj → Bool
  | none, none => true
  | some a, some b =>
    if a.id == b.id then true
    else
      a.fields.length == b.fields.length &&
        a.fields.all (fun p => strictEq p.2 (lookupJS b p.1))
  | _, _ => false

/-- `shallowEqualExceptChildren(a, b)` from fiber.ts: as `shallowEqual`
but the `children` key is filtered out of both key lists first. -/
def shallowEqualExceptChildren : Option JSObj → Option JSObj → Bool
  | none, none => true
  | some a, some b =>
    if a.id == b.id then true
    else
      let fa := a.fields.filter (fun p => p.1 ≠ "children")
      let fb := b.fields.filter (fun p => p.1 ≠ "children")
      fa.length == fb.length &&
        fa.all (fun p => strictEq p.2 (lookupJS b p.1))
  | _, _ => false

/-- The `type` field of a vnode: a host tag string, a component function
reference (by identity), or the `Fragment` symbol. -/
inductive VType where
  | host (tag : String)
  | fn (id : Nat)
  | fragment
deriving DecidableEq, Repr

/-- One entry of a `children` array handed to `reconcileChildren`: a
plain text / number leaf (kept in its `String(child)` rendering), a
`null` entry, or a vnode.  A vnode carries its `type`, its props object
(`null` allowed), the reference identity of its `children` array, the
children themselves, and its nullable `key`. -/
inductive Child where
  | text (s : String)
  | cnull
  | node (vtype : VType) (props : Option JSObj) (childrenId : Nat)
      (children : List Child) (key : Option JSVal)

/-- Whether `typeof c` is `string` or `number`. -/
def Child.isText : Child → Bool
  | .text _ => true
  | _ => false

/-- The JS test `c && c.key != null`. -/
def Child.hasKey : Child → Bool
  | .node _ _ _ _ (some _) => true
  | _ => false

/-- The key of a vnode child, `none` for null/undefined keys and for
non-vnode entries. -/
def Child.keyOf : Child → Option JSVal
  | .node _ _ _ _ k => k
  | _ => none

/-- Whether the entry is a `null` child (skipped by both diff walks). -/
def Child.isNull : Child → Bool
  | .cnull => true
  | _ => false

/-- `wrapProps(vnode)` from fiber.ts: if the vnode has a non-empty
children array, a fresh object is built from the props fields with a
`children` field holding the children array reference; otherwise the
existing props object itself (or a fresh empty object when props are
null) is returned.  The `Nat` result is the advanced allocation
counter. -/
def wrapProps (c : Child) (fresh : Nat) : JSObj × Nat :=
  match c with
  | .cnull => (⟨fresh, []⟩, fresh + 1)
  | .text _ => (⟨fresh, []⟩, fresh + 1)
  | .node _ props childrenId children _ =>
    if children.isEmpty then
      match props with
      | some o => (o, fresh)
      | none => (⟨fresh, []⟩, fresh + 1)
    else
      let base := (props.map JSObj.fields).getD []
      (⟨fresh, base.filter (fun p => p.1 ≠ "children") ++ [("children", .obj childrenId)]⟩,
        fresh + 1)

/-! ## Fiber nodes -/

/-- `FiberTag` from fiber.ts. -/
inductive FTag where
  | HostRoot
  | HostComponent
  | FunctionComponent
  | Text
  | Fragment
deriving DecidableEq, Repr

/-- Side-effect flag bits from fiber.ts (`Flags`). -/
def Flags.Placement : Nat := 1
def Flags.Update : Nat := 2
def Flags.Deletion : Nat := 4

/-- Effect kind of a hook: `passive` (useEffect) or `layout`
(useLayoutEffect). -/
inductive EffKind where
  | passive
  | layout
deriving DecidableEq, Repr

/-- The scheduling-relevant state of an `EffectHook` record from
hooks.ts.  The `create` and `destroy` closures themselves are opaque;
`hasDestroy` records whether `destroy` is non-null. -/
structure EffData where
  kind : EffKind
  deps : Option (List JSVal)
  hasDestroy : Bool
  firstRun : Bool
  depsChanged : Bool
deriving DecidableEq, Repr

/-- One slot of a fiber's `hooks` array. -/
inductive Hook where
  | state (value : JSVal)
  | effect (e : EffData)
  | other
deriving DecidableEq, Repr

/-- A fiber node.  `stateNode` is the identity of the attached host DOM
object (if any); `sdata` is the text content of a text fiber's host
node; `pendingText` holds the string form of `pendingProps` for text
fibers (the source stores both object props and text payloads in the
single `pendingProps` field); `flags` is the side-effect bitset.
Child/sibling pointers are represented by the `children` list. -/
inductive Fiber where
  | mk (tag : FTag) (ftype : Option VType) (key : Option JSVal)
      (stateNode : Option Nat) (sdata : Option String)
      (memoizedProps : Option JSObj) (pendingProps : Option JSObj)
      (pendingText : Option String) (flags : Nat) (hooks : List Hook)
      (children : List Fiber)

def Fiber.tag : Fiber → FTag
  | .mk t _ _ _ _ _ _ _ _ _ _ => t

def Fiber.ftype : Fiber → Option VType
  | .mk _ t _ _ _ _ _ _ _ _ _ => t

def Fiber.key : Fiber → Option JSVal
  | .mk _ _ k _ _ _ _ _ _ _ _ => k

def Fiber.stateNode : Fiber → Option Nat
  | .mk _ _ _ s _ _ _ _ _ _ _ => s

def Fiber.sdata : Fiber → Option String
  | .mk _ _ _ _ d _ _ _ _ _ _ => d

def Fiber.memoizedProps : Fiber → Option JSObj
  | .mk _ _ _ _ _ m _ _ _ _ _ => m

def Fiber.pendingProps : Fiber → Option JSObj
  | .mk _ _ _ _ _ _ p _ _ _ _ => p

def Fiber.pendingText : Fiber → Option String
  | .mk _ _ _ _ _ _ _ p _ _ _ => p

def Fiber.flags : Fiber → Nat
  | .mk _ _ _ _ _ _ _ _ f _ _ => f

def Fiber.hooks : Fiber → List Hook
  | .mk _ _ _ _ _ _ _ _ _ h _ => h

def Fiber.children : Fiber → List Fiber
  | .mk _ _ _ _ _ _ _ _ _ _ c => c

/-- Whether a fiber carries the given flag bit. -/
def Fiber.hasFlag (f : Fiber) (bit : Nat) : Bool := f.flags &&& bit ≠ 0

/-- `f.flags |= bit`. -/
def Fiber.orFlag (f : Fiber) (bit : Nat) : Fiber :=
  match f with
  | .mk t ty k s d m p pt fl h c => .mk t ty k s d m p pt (fl ||| bit) h c

/-! ## Child reconciliation (`reconcileChildren`) -/

/-- Mode selection guard from `reconcileChildren`: the new list is
non-empty, no entry is a plain text/number leaf, and at least one entry
carries a non-null key. -/
def keyable (cs : List Child) : Bool :=
  decide (0 < cs.length) && cs.all (fun c => !c.isText) && cs.any Child.hasKey

/-- The reconciliation mode chosen for a new children list. -/
inductive RMode where
  | keyed
  | linear
deriving DecidableEq, Repr

/-- Which diffing mode `reconcileChildren` runs for a given list. -/
def reconcileMode (cs : List Child) : RMode :=
  if keyable cs then .keyed else .linear

/-- `oldKeyMap.set(k, f)`: JS `Map` keeps the original insertion position
on overwrite and compares keys with SameValueZero.  Each entry also
records the fiber's original sibling index (`_oldIndex`). -/
def mapSet (m : List (JSVal × Fiber × Nat)) (k : JSVal) (v : Fiber × Nat) :
    List (JSVal × Fiber × Nat) :=
  if m.any (fun e => sameValueZero e.1 k) then
    m.map (fun e => if sameValueZero e.1 k then (e.1, v) else e)
  else m ++ [(k, v)]

/-- `oldKeyMap.get(k)`. -/
def mapGet (m : List (JSVal × Fiber × Nat)) (k : JSVal) : Option (Fiber × Nat) :=
  (m.find? (fun e => sameValueZero e.1 k)).map (fun e => e.2)

/-- Building `oldKeyMap` from the previous child chain: every old fiber
is counted by position, and those with a non-null key are inserted. -/
def buildOldKeyMap (olds : List Fiber) : List (JSVal × Fiber × Nat) :=
  olds.enum.foldl
    (fun m p =>
      match p.2.key with
      | some k => mapSet m k (p.2, p.1)
      | none => m)
    []

/-- JS `old.key === child.key` on nullable keys. -/
def keyEqB : Option JSVal → Option JSVal → Bool
  | none, none => true
  | some a, some b => strictEq a b
  | _, _ => false

/-- Allocation of a brand-new fiber for a child description that found
no reusable counterpart (shared by both diff modes): fragment /
function / host tag dispatch plus the Placement bit. -/
def freshFiberOf (c : Child) (fresh : Nat) : Fiber × Nat :=
  match c with
  | .text s =>
    (.mk .Text none none none none none none (some s) Flags.Placement [] [], fresh)
  | .cnull => (.mk .Text none none none none none none none 0 [] [], fresh)
  | .node vtype _ _ _ key =>
    let w := wrapProps c fresh
    let tag : FTag :=
      match vtype with
      | .fragment => .Fragment
      | .fn _ => .FunctionComponent
      | .host _ => .HostComponent
    let ftype : Option VType := match vtype with | .fragment => none | t => some t
    (.mk tag ftype key none none none (some w.1) none Flags.Placement [] [], w.2)

/-- Accumulator of the keyed diff walk. -/
structure KeyedState where
  chain : List Fiber
  lastPlacedIndex : Int
  used : List JSVal
  fresh : Nat

/-- Appending a freshly allocated Placement fiber in the keyed walk. -/
def keyedPushFresh (st : KeyedState) (c : Child) : KeyedState :=
  let w := freshFiberOf c st.fresh
  { st with chain := st.chain ++ [w.1], fresh := w.2 }

/-- One iteration of the keyed walk over the new children list:
lookup by key, reuse on a type match (recomputing the Update bit from a
shallow props comparison and the Placement bit from the
`lastPlacedIndex` move heuristic), otherwise allocate fresh with
Placement. -/
def keyedStep (oldMap : List (JSVal × Fiber × Nat)) (st : KeyedState) (c : Child) :
    KeyedState :=
  match c with
  | .cnull => st
  | .text s =>
    let nf : Fiber := .mk .Text none none none none none none (some s) Flags.Placement [] []
    { st with chain := st.chain ++ [nf] }
  | .node vtype _ _ _ key =>
    match key with
    | none => keyedPushFresh st c
    | some k =>
      match mapGet oldMap k with
      | none => keyedPushFresh st c
      | some (old, oldIdx) =>
        if old.ftype == some vtype then
          let w := wrapProps c st.fresh
          let updateBit :=
            if shallowEqual old.memoizedProps (some w.1) then 0 else Flags.Update
          let placeBit :=
            if (oldIdx : Int) < st.lastPlacedIndex then Flags.Placement else 0
          let lastPlaced :=
            if (oldIdx : Int) < st.lastPlacedIndex then st.lastPlacedIndex else (oldIdx : Int)
          let nf : Fiber := .mk old.tag (some vtype) old.key old.stateNode old.sdata none
            (some w.1) none (updateBit ||| placeBit) old.hooks old.children
          { chain := st.chain ++ [nf], lastPlacedIndex := lastPlaced,
            used := st.used ++ [k], fresh := w.2 }
        else keyedPushFresh st c

/-- After the keyed walk, every map entry whose key was not consumed is
marked Deletion and appended to the effect list, in map insertion
order. -/
def keyedDeletions (oldMap : List (JSVal × Fiber × Nat)) (used : List JSVal) :
    List Fiber :=
  (oldMap.filter (fun e => !(used.any (fun u => sameValueZero u e.1)))).map
    (fun e => e.2.1.orFlag Flags.Deletion)

/-- The keyed diff: returns the new child chain, the Deletion-marked old
fibers (in the order they are pushed onto the effect list), and the
advanced allocation counter. -/
def reconcileKeyed (olds : List Fiber) (cs : List Child) (fresh : Nat) :
    List Fiber × List Fiber × Nat :=
  let m := buildOldKeyMap olds
  let st := cs.foldl (keyedStep m) ⟨[], -1, [], fresh⟩
  (st.chain, keyedDeletions m st.used, st.fresh)

/-- One position of the linear (non-keyed) diff: pair the new child with
the old fiber at the same position.  Text children reuse an old text
fiber (Update when the host node's current data differs); vnodes reuse
on equal type and key (Update from the shallow props comparison); any
mismatch allocates fresh with Placement. -/
def linearStep (old? : Option Fiber) (c : Child) (fresh : Nat) : Fiber × Nat :=
  match c with
  | .cnull => freshFiberOf c fresh
  | .text s =>
    match old? with
    | some old =>
      if old.tag == .Text then
        let changed : Bool :=
          match old.stateNode, old.sdata with
          | some _, some d => d != s
          | some _, none => true
          | none, _ => false
        if changed then
          (.mk old.tag old.ftype old.key old.stateNode old.sdata none none (some s)
            Flags.Update old.hooks old.children, fresh)
        else
          (.mk old.tag old.ftype old.key old.stateNode old.sdata none none none 0
            old.hooks old.children, fresh)
      else freshFiberOf c fresh
    | none => freshFiberOf c fresh
  | .node vtype _ _ _ key =>
    match old? with
    | some old =>
      if old.ftype == some vtype && keyEqB old.key key then
        let w := wrapProps c fresh
        let updateBit :=
          if shallowEqual old.memoizedProps (some w.1) then 0 else Flags.Update
        (.mk old.tag (some vtype) old.key old.stateNode old.sdata none (some w.1)
          none updateBit old.hooks old.children, w.2)
      else freshFiberOf c fresh
    | none => freshFiberOf c fresh

/-- The linear diff walk: null children are skipped without consuming an
old position; every other child consumes one old position; old fibers
beyond the new list's length are marked Deletion and pushed in order. -/
def reconcileLinear : List Fiber → List Child → Nat → List Fiber × List Fiber × Nat
  | olds, [], fresh => ([], olds.map (fun f => f.orFlag Flags.Deletion), fresh)
  | olds, .cnull :: cs, fresh => reconcileLinear olds cs fresh
  | olds, c :: cs, fresh =>
    let w := linearStep olds.head? c fresh
    let r := reconcileLinear (olds.drop 1) cs w.2
    (w.1 :: r.1, r.2.1, r.2.2)

/-- `reconcileChildren`: dispatch between the keyed and the linear
diff. -/
def reconcileChildren (olds : List Fiber) (cs : List Child) (fresh : Nat) :
    List Fiber × List Fiber × Nat :=
  if keyable cs then reconcileKeyed olds cs fresh
  else reconcileLinear olds cs fresh

/-! ## completeWork and host mutations emitted during the render phase -/

/-- Host-tree operations performed by `completeWork` during the render
phase: element / text-node creation (for detached, not yet inserted
nodes), the initial attribute application on a just-created element,
and the in-place text-content write of a reused text node. -/
inductive HostEvent where
  | createEl (id : Nat) (tag : String)
  | initAttrs (id : Nat)
  | createText (id : Nat) (s : String)
  | writeText (id : Nat) (s : String)
deriving DecidableEq, Repr

/-- The host object an event acts on. -/
def HostEvent.target : HostEvent → Nat
  | .createEl i _ => i
  | .initAttrs i => i
  | .createText i _ => i
  | .writeText i _ => i

/-- Whether the event writes state (attributes or text content) to an
already-created host object, as opposed to creating a node. -/
def HostEvent.isWrite : HostEvent → Bool
  | .initAttrs _ => true
  | .writeText _ _ => true
  | _ => false

/-- The text payload a text fiber writes, `String(pendingProps)`
(JS coerces a null payload to the string `"null"`). -/
def Fiber.textPayload (f : Fiber) : String :=
  match f.pendingText with
  | some s => s
  | none => "null"

/-- `completeWork(fiber)`: a host element without a `stateNode`
allocates a fresh host object (identity `nextHost`) and applies its
initial props; a host element always records `memoizedProps :=
pendingProps`; a text fiber without a `stateNode` allocates a fresh
text node, and a reused text fiber carrying Update writes its payload
into the host node's data in place; all other tags only aggregate
flags.  Returns the updated fiber, the host events performed, and the
advanced host allocation counter. -/
def completeWork (f : Fiber) (nextHost : Nat) : Fiber × List HostEvent × Nat :=
  match f with
  | .mk t ty k s d m p pt fl h c =>
    match t with
    | .HostComponent =>
      match s with
      | none =>
        let tagStr := match ty with | some (.host tg) => tg | _ => ""
        (.mk t ty k (some nextHost) d p p pt fl h c,
          [.createEl nextHost tagStr, .initAttrs nextHost], nextHost + 1)
      | some _ => (.mk t ty k s d p p pt fl h c, [], nextHost)
    | .Text =>
      match s with
      | none =>
        let payload := Fiber.textPayload (.mk t ty k s d m p pt fl h c)
        (.mk t ty k (some nextHost) (some payload) m p pt fl h c,
          [.createText nextHost payload], nextHost + 1)
      | some n =>
        if fl &&& Flags.Update ≠ 0 then
          let payload := Fiber.textPayload (.mk t ty k s d m p pt fl h c)
          (.mk t ty k s (some payload) m p pt fl h c, [.writeText n payload], nextHost)
        else (.mk t ty k s d m p pt fl h c, [], nextHost)
    | _ => (.mk t ty k s d m p pt fl h c, [], nextHost)

/-- Completing a flat chain of sibling fibers in order (each leaf is
completed before the walker moves to its sibling), threading the host
allocation counter. -/
def completeChain : List Fiber → Nat → List Fiber × List HostEvent × Nat
  | [], k => ([], [], k)
  | f :: fs, k =>
    let r0 := completeWork f k
    let r := completeChain fs r0.2.2
    (r0.1 :: r.1, r0.2.1 ++ r.2.1, r.2.2)

/-! ## Commit phase: placement order and deletion -/

mutual
/-- The host objects `commitPlacement` / `removeHostNodes` act on for a
fiber: its own `stateNode` for host elements and text leaves, otherwise
the host-bearing descendants, depth first. -/
def hostTargets : Fiber → List Nat
  | .mk t _ _ s _ _ _ _ _ _ cs =>
    match t with
    | .HostComponent => s.toList
    | .Text => s.toList
    | _ => hostTargetsList cs

def hostTargetsList : List Fiber → List Nat
  | [] => []
  | f :: fs => hostTargets f ++ hostTargetsList fs
end

/-- DOM `appendChild`: moves the node to the end of the child list (a
node already present is first detached). -/
def hostAppend (l : List Nat) (n : Nat) : List Nat :=
  l.filter (fun x => x != n) ++ [n]

/-- DOM `removeChild`. -/
def hostRemove (l : List Nat) (n : Nat) : List Nat :=
  l.filter (fun x => x != n)

/-- The change one effect-list entry makes to the host parent's child
order during commit: Placement appends the fiber's host objects, Update
leaves the order unchanged, Deletion removes the subtree's host
objects. -/
def commitEffectOrder (host : List Nat) (f : Fiber) : List Nat :=
  let h1 := if f.hasFlag Flags.Placement then (hostTargets f).foldl hostAppend host else host
  if f.hasFlag Flags.Deletion then (hostTargets f).foldl hostRemove h1 else h1

/-- Walking the effect list in construction order. -/
def commitHostOrder (host : List Nat) (effects : List Fiber) : List Nat :=
  effects.foldl commitEffectOrder host

/-- One full pass over a flat keyed/linear list level: reconcile the new
children against the old chain, complete every new fiber (allocating
host objects for fresh ones), build the effect list (Deletion entries
are pushed at diff time and therefore precede the completion-order
entries), and commit the placements/deletions against the host parent's
child order. -/
structure LevelResult where
  chain : List Fiber
  deletions : List Fiber
  hostOrder : List Nat

def renderListLevel (olds : List Fiber) (cs : List Child) (fresh nextHost : Nat)
    (host : List Nat) : LevelResult :=
  let r := reconcileChildren olds cs fresh
  let comp := completeChain r.1 nextHost
  let effects := r.2.1 ++ comp.1.filter (fun f => f.flags &&& 7 != 0)
  ⟨comp.1, r.2.1, commitHostOrder host effects⟩

/-- Commit-phase events of `commitDeletion`: effect cleanups and host
removals. -/
inductive CommitEvent where
  | cleanup
  | remove (hostId : Nat)
deriving DecidableEq, Repr

mutual
/-- `cleanupPassiveEffects`: run `destroy` for every effect hook (layout
and passive alike) of every function component in the subtree, in
parent-first or child-first order per configuration. -/
def cleanupEvents (childFirst : Bool) : Fiber → List CommitEvent
  | .mk t _ _ _ _ _ _ _ _ hooks cs =>
    let own : List CommitEvent :=
      if t == .FunctionComponent then
        hooks.filterMap (fun h =>
          match h with
          | .effect e => if e.hasDestroy then some CommitEvent.cleanup else none
          | _ => none)
      else []
    if childFirst then cleanupEventsList childFirst cs ++ own
    else own ++ cleanupEventsList childFirst cs

def cleanupEventsList (childFirst : Bool) : List Fiber → List CommitEvent
  | [] => []
  | f :: fs => cleanupEvents childFirst f ++ cleanupEventsList childFirst fs
end

mutual
/-- `removeHostNodes`: remove every host object under the deleted fiber
from the host parent (`contained` models the `parentDom.contains`
guard). -/
def removeEvents (contained : Nat → Bool) : Fiber → List CommitEvent
  | .mk t _ _ s _ _ _ _ _ _ cs =>
    match t with
    | .HostComponent | .Text =>
      match s with
      | some n => if contained n then [.remove n] else []
      | none => []
    | _ => removeEventsList contained cs

def removeEventsList (contained : Nat → Bool) : List Fiber → List CommitEvent
  | [] => []
  | f :: fs => removeEvents contained f ++ removeEventsList contained fs
end

/-- `commitDeletion`: first `cleanupPassiveEffects` over the whole
subtree, then `removeHostNodes`. -/
def commitDeletion (childFirst : Bool) (contained : Nat → Bool) (f : Fiber) :
    List CommitEvent :=
  cleanupEvents childFirst f ++ removeEvents contained f

/-! ## Bailout and child-chain cloning -/

/-- `createWorkInProgress(child, child.pendingProps ?? child.memoizedProps)`
as used by `cloneChildFibers`: the clone keeps the tag, type, key, host
object reference and hooks; its flags and effect pointer are reset. -/
def createWorkInProgressClone (c : Fiber) : Fiber :=
  match c.pendingText with
  | some s => .mk c.tag c.ftype c.key c.stateNode c.sdata none none (some s) 0 c.hooks []
  | none =>
    let pp := match c.pendingProps with
      | some p => some p
      | none => c.memoizedProps
    .mk c.tag c.ftype c.key c.stateNode c.sdata none pp none 0 c.hooks []

/-- `cloneChildFibers`: clone the previous child chain one level deep. -/
def cloneChildFibers (currentChildren : List Fiber) : List Fiber :=
  currentChildren.map createWorkInProgressClone

/-- Result of `updateFunctionComponent`: whether the component function
was invoked, and the resulting child chain. -/
structure UFCResult where
  invoked : Bool
  chain : List Fiber
  fresh : Nat

/-- `updateFunctionComponent`: bailout when the alternate exists, its
`memoizedProps` is truthy and shallow-equal to the pending props, and
the fiber carries none of Update/Placement/Deletion; otherwise invoke
the component function and reconcile its single emitted child. -/
def updateFunctionComponent (fiber : Fiber) (alternate : Option Fiber)
    (render : Option JSObj → Child) (fresh : Nat) : UFCResult :=
  match alternate with
  | some alt =>
    if alt.memoizedProps.isSome &&
        shallowEqual alt.memoizedProps fiber.pendingProps &&
        (fiber.flags &&& (Flags.Update ||| Flags.Placement ||| Flags.Deletion) == 0) then
      ⟨false, cloneChildFibers alt.children, fresh⟩
    else
      let vnode := render fiber.pendingProps
      let r := reconcileChildren alt.children [vnode] fresh
      ⟨true, r.1, r.2.2⟩
  | none =>
    let vnode := render fiber.pendingProps
    let r := reconcileChildren [] [vnode] fresh
    ⟨true, r.1, r.2.2⟩

/-! ## Passive effect flush and scheduling -/

/-- The run condition shared by both flush loops:
`h.firstRun || h.depsChanged`. -/
def effectRunCond (e : EffData) : Bool := e.firstRun || e.depsChanged

/-- The destroy-phase condition of `flushPassiveEffects` for one hook. -/
def passiveDestroyCond (h : Hook) : Bool :=
  match h with
  | .effect e => e.kind == .passive && effectRunCond e && !e.firstRun && e.hasDestroy
  | _ => false

/-- The create-phase condition of `flushPassiveEffects` for one hook. -/
def passiveCreateCond (h : Hook) : Bool :=
  match h with
  | .effect e => e.kind == .passive && effectRunCond e
  | _ => false

/-- Execution trace events of one passive flush, identified by the
pending-fiber index and the hook index. -/
inductive PEvent where
  | destroy (fiberIdx hookIdx : Nat)
  | create (fiberIdx hookIdx : Nat)
deriving DecidableEq, Repr

def PEvent.isDestroy : PEvent → Bool
  | .destroy _ _ => true
  | _ => false

def PEvent.isCreate : PEvent → Bool
  | .create _ _ => true
  | _ => false

/-- One phase (destroy or create) of `flushPassiveEffects`: a full pass
over all pending fibers and, per fiber, all its hooks, emitting an
event for every hook satisfying the phase condition. -/
def phaseEvents (cond : Hook → Bool) (mk : Nat → Nat → PEvent)
    (fibers : List (List Hook)) : List PEvent :=
  (List.range fibers.length).flatMap (fun i =>
    (List.range (fibers.getD i []).length).filterMap (fun j =>
      if cond ((fibers.getD i []).getD j .other) then some (mk i j) else none))

/-- `flushPassiveEffects`: the destroy pass over every pending fiber,
followed by the create pass over every pending fiber (an empty pending
list returns immediately). -/
def flushPassiveEffects (fibers : List (List Hook)) : List PEvent :=
  if fibers.isEmpty then []
  else
    phaseEvents passiveDestroyCond PEvent.destroy fibers ++
      phaseEvents passiveCreateCond PEvent.create fibers

/-- `schedulePassiveFlush`: schedules one deferred flush callback unless
one is already scheduled; returns the number of callbacks scheduled and
the new debounce flag. -/
def schedulePassiveFlush (scheduled : Bool) : Nat × Bool :=
  if scheduled then (0, true) else (1, true)

/-- The passive-scheduling step at the end of `commitRoot`: schedule a
deferred flush only when passive effects are pending and none is
scheduled yet. -/
def commitRootPassiveScheduling (pendingNonempty scheduled : Bool) : Nat × Bool :=
  if pendingNonempty && !scheduled then schedulePassiveFlush scheduled
  else (0, scheduled)

/-! ## Hooks: effect dependency comparison and useState -/

/-- The mount path of `mountOrUpdateEffect`: a first hook record is
created with `firstRun` and `depsChanged` both true. -/
def mountEffectHook (kind : EffKind) (deps : Option (List JSVal)) : EffData :=
  ⟨kind, deps, false, true, true⟩

/-- The update path of `mountOrUpdateEffect`: missing deps on either
side or a length mismatch mark the hook changed; otherwise the hook is
marked changed iff some new element is `!==` the previous element at
the same index. -/
def updateEffectHook (eff : EffData) (newDeps : Option (List JSVal)) : EffData :=
  let changed : Bool :=
    match newDeps, eff.deps with
    | none, _ => true
    | some _, none => true
    | some nd, some od =>
      if nd.length != od.length then true
      else (nd.zip od).any (fun p => !strictEq p.1 p.2)
  { eff with deps := newDeps, depsChanged := changed }

/-- Modelled from the spec: the comparison the claim C9 states —
pairwise `Object.is` over dependency lists of equal length. -/
def pairwiseObjectIs (a b : List JSVal) : Bool :=
  a.length == b.length && (a.zip b).all (fun p => objectIs p.1 p.2)

/-- The argument of a `setState` call: a plain next value or a
functional updater. -/
inductive Updater where
  | value (v : JSVal)
  | fn (f : JSVal → JSVal)

/-- Priority names accepted by `setState`. -/
inductive Priority where
  | userBlocking
  | high
  | normal
  | low
  | idle
deriving DecidableEq, Repr

/-- The `LaneMap` of hooks.ts. -/
def laneOf : Priority → Nat
  | .userBlocking => 1
  | .high => 2
  | .normal => 4
  | .low => 8
  | .idle => 16

def applyUpdater : Updater → JSVal → JSVal
  | .value v, _ => v
  | .fn f, prev => f prev

/-- Result of a `setState` call: the stored value afterwards and the
list of `scheduleRootUpdate` calls made (each with its lane). -/
structure SetStateResult where
  value : JSVal
  scheduleCalls : List Nat
deriving Repr

/-- The setter returned by `useState`: apply a functional updater, then
skip everything when the next value is `Object.is`-equal to the current
one; otherwise store the next value and schedule a root update with the
mapped lane. -/
def setStateImpl (prev : JSVal) (u : Updater) (prio : Priority) : SetStateResult :=
  let next := applyUpdater u prev
  if objectIs prev next then ⟨prev, []⟩
  else ⟨next, [laneOf prio]⟩

/-! ## Lane scheduler -/

/-- A keyed `li` vnode with no children whose only prop is its key
string; `pid` is the props object's reference identity (fresh per
render, as `createElement` builds a new props object each time). -/
def liChild (keyName : String) (pid : Nat) : Child :=
  .node (.host "li") (some ⟨pid, [("key", .str keyName)]⟩) 0 [] (some (.str keyName))

/-- The mount pass of the C1 scenario: keyed list `[A, B, C]`. -/
def mountChildren : List Child := [liChild "A" 10, liChild "B" 11, liChild "C" 12]

/-- The update pass of the C1 scenario: same entries reordered to
`[C, A, B]`, with fresh props objects carrying identical fields. -/
def reorderChildren : List Child := [liChild "C" 20, liChild "A" 21, liChild "B" 22]

/-- Mounting `[A, B, C]` into an empty host container. -/
def mountPass : LevelResult := renderListLevel [] mountChildren 100 201 []

/-- Reconciling the mounted list against `[C, A, B]` and committing. -/
def reorderPass : LevelResult :=
  renderListLevel mountPass.chain reorderChildren 300 400 mountPass.hostOrder

/-- A previously committed `div` fiber whose memoized props carry an
`id` field and a `children` array reference. -/
def oldDivWithChildren : Fiber :=
  .mk .HostComponent (some (.host "div")) none (some 9) none
    (some ⟨30, [("id", .str "x"), ("children", .obj 40)]⟩) none none 0 [] []

/-- A new `div` description with the same `id` prop but a fresh
(non-empty) children array, reference 41. -/
def newDivSameProps : Child :=
  .node (.host "div") (some ⟨31, [("id", .str "x")]⟩) 41 [.text "t"] none

/-- A new `div` description keyed "q" with the same `id` prop and a
fresh children array. -/
def keyedDivChild : Child :=
  .node (.host "div") (some ⟨31, [("id", .str "x")]⟩) 41 [.text "t"] (some (.str "q"))

/-- A scratch keyed-walk accumulator. -/
def scratchKeyedState : KeyedState := ⟨[], -1, [], 77⟩

/-- A one-entry old key map binding "q" to the committed div. -/
def scratchOldMap : List (JSVal × Fiber × Nat) := [(JSVal.str "q", oldDivWithChildren, 0)]

/-- A committed unkeyed `div` fiber at position 0. -/
def oldDivPositional : Fiber :=
  .mk .HostComponent (some (.host "div")) none (some 7) none (some ⟨60, []⟩) none none 0 [] []

/-- A new `span` description replacing the `div` at position 0. -/
def newSpanPositional : Child := .node (.host "span") (some ⟨61, []⟩) 0 [] none

/-- A mixed list: first entry keyed, second entry unkeyed. -/
def mixedChildren : List Child :=
  [.node (.host "li") none 0 [] (some (.str "a")), .node (.host "li") none 1 [] none]

/-- A reused text fiber whose host text node 5 is part of the committed
tree and that carries the Update bit with payload "new". -/
def reusedTextFiber : Fiber :=
  .mk .Text none none (some 5) (some "old") none none (some "new") Flags.Update [] []

lemma lor_and_self (n b : Nat) : (n ||| b) &&& b = b := by
  apply Nat.eq_of_testBit_eq
  intro i
  simp [Nat.testBit_and, Nat.testBit_or]
  tauto

lemma orFlag_hasFlag (f : Fiber) (b : Nat) (hb : b ≠ 0) : (f.orFlag b).hasFlag b = true := by
  cases f with
  | mk t ty k s d m p pt fl hooks cs =>
    simp [Fiber.orFlag, Fiber.hasFlag, Fiber.flags, lor_and_self, hb]

lemma orFlag_key (f : Fiber) (b : Nat) : (f.orFlag b).key = f.key := by
  cases f with
  | mk t ty k s d m p pt fl hooks cs => simp [Fiber.orFlag, Fiber.key]

lemma clone_stateNode (c : Fiber) :
    (createWorkInProgressClone c).stateNode = c.stateNode := by
  unfold createWorkInProgressClone
  cases c.pendingText <;> simp [Fiber.stateNode]

lemma clone_tag (c : Fiber) : (createWorkInProgressClone c).tag = c.tag := by
  unfold createWorkInProgressClone
  cases c.pendingText <;> simp [Fiber.tag]

lemma clone_key (c : Fiber) : (createWorkInProgressClone c).key = c.key := by
  unfold createWorkInProgressClone
  cases c.pendingText <;> simp [Fiber.key]

lemma clone_flags (c : Fiber) : (createWorkInProgressClone c).flags = 0 := by
  unfold createWorkInProgressClone
  cases c.pendingText <;> simp [Fiber.flags]

/-- A fiber with no flags and an already-created host object emits no
host events in `completeWork`. -/
lemma completeWork_silent (f : Fiber) (h0 : f.flags = 0) :
    (!f.stateNode.isSome || (completeWork f 0).2.1.isEmpty) = true := by
  cases f with
  | mk t ty k s d m p pt fl hooks cs =>
    cases s with
    | none => simp [Fiber.stateNode]
    | some n =>
      simp only [Fiber.flags] at h0
      subst h0
      cases t <;> simp [completeWork, Fiber.stateNode]

/-- Every fiber stored in `oldKeyMap` carries a non-null key. -/
lemma mapSet_key_isSome (m : List (JSVal × Fiber × Nat)) (k : JSVal) (v : Fiber × Nat)
    (hm : ∀ e ∈ m, e.2.1.key.isSome = true) (hv : v.1.key.isSome = true) :
    ∀ e ∈ mapSet m k v, e.2.1.key.isSome = true := by
  intro e he
  unfold mapSet at he
  split at he
  · rw [List.mem_map] at he
    obtain ⟨x, hx, hxe⟩ := he
    by_cases hsv : sameValueZero x.1 k
    · rw [if_pos hsv] at hxe
      subst hxe
      exact hv
    · rw [if_neg hsv] at hxe
      subst hxe
      exact hm x hx
  · rw [List.mem_append] at he
    rcases he with he | he
    · exact hm e he
    · rw [List.mem_singleton] at he
      subst he
      exact hv

lemma buildOldKeyMap_key_isSome (olds : List Fiber) :
    ∀ e ∈ buildOldKeyMap olds, e.2.1.key.isSome = true := by
  unfold buildOldKeyMap
  have main : ∀ (l : List (Nat × Fiber)) (m : List (JSVal × Fiber × Nat)),
      (∀ e ∈ m, e.2.1.key.isSome = true) →
      ∀ e ∈ l.foldl
        (fun m p =>
          match p.2.key with
          | some k => mapSet m k (p.2, p.1)
          | none => m) m, e.2.1.key.isSome = true := by
    intro l
    induction l with
    | nil => intro m hm; simpa using hm
    | cons p l ih =>
      intro m hm
      rw [List.foldl_cons]
      cases hk : p.2.key with
      | none => exact ih m hm
      | some k =>
        exact ih _ (mapSet_key_isSome m k (p.2, p.1) hm (by simp [hk]))
  exact main olds.enum [] (by simp)

/-- The deletion suffix of the linear diff: precisely the old fibers
beyond the number of non-null new children, marked Deletion, in
order. -/
lemma reconcileLinear_deletions (cs : List Child) : ∀ (olds : List Fiber) (fresh : Nat),
    (reconcileLinear olds cs fresh).2.1
      = (olds.drop (cs.countP (fun c => !c.isNull))).map (fun g => g.orFlag Flags.Deletion) := by
  induction cs with
  | nil => intro olds fresh; simp [reconcileLinear]
  | cons c cs ih =>
    intro olds fresh
    cases c with
    | cnull => simpa [reconcileLinear, Child.isNull, List.countP_cons] using ih olds fresh
    | text s =>
      simp [reconcileLinear, Child.isNull, List.countP_cons, ih, List.drop_drop]
    | node vtype props cid children key =>
      simp [reconcileLinear, Child.isNull, List.countP_cons, ih, List.drop_drop]

lemma filterMap_cleanup_all (hooks : List Hook) :
    ((hooks.filterMap (fun h =>
      match h with
      | .effect e => if e.hasDestroy then some CommitEvent.cleanup else none
      | _ => none)).all (fun e => e == CommitEvent.cleanup)) = true := by
  rw [List.all_eq_true]
  intro e he
  rw [List.mem_filterMap] at he
  obtain ⟨h, _, hg⟩ := he
  cases h with
  | effect x =>
    by_cases hd : x.hasDestroy
    · simp only [hd, if_true] at hg
      cases hg
      rfl
    · simp [hd] at hg
  | state v => simp at hg
  | other => simp at hg

mutual
theorem cleanupEvents_all (cf : Bool) :
    (f : Fiber) → ((cleanupEvents cf f).all (fun e => e == CommitEvent.cleanup)) = true
  | .mk t ty k s d m p pt fl hooks cs => by
    have hl := cleanupEventsList_all cf cs
    have hown := filterMap_cleanup_all hooks
    simp only [cleanupEvents]
    cases cf <;> cases ht : t == FTag.FunctionComponent <;>
      simp_all [List.all_append] <;> exact hl

theorem cleanupEventsList_all (cf : Bool) :
    (l : List Fiber) → ((cleanupEventsList cf l).all (fun e => e == CommitEvent.cleanup)) = true
  | [] => rfl
  | f :: fs => by
    have h1 := cleanupEvents_all cf f
    have h2 := cleanupEventsList_all cf fs
    simp [cleanupEventsList, List.all_append, h1, h2]
end

/-- Test for a removal event. -/
def CommitEvent.isRemove : CommitEvent → Bool
  | .remove _ => true
  | _ => false

mutual
theorem removeEvents_all (contained : Nat → Bool) :
    (f : Fiber) → ((removeEvents contained f).all CommitEvent.isRemove) = true
  | .mk t ty k s d m p pt fl hooks cs => by
    have hl := removeEventsList_all contained cs
    simp only [removeEvents]
    cases t <;> first
      | (cases s with
          | none => rfl
          | some n =>
            by_cases hc : contained n <;> simp [hc, CommitEvent.isRemove])
      | exact hl

theorem removeEventsList_all (contained : Nat → Bool) :
    (l : List Fiber) → ((removeEventsList contained l).all CommitEvent.isRemove) = true
  | [] => rfl
  | f :: fs => by
    have h1 := removeEvents_all contained f
    have h2 := removeEventsList_all contained fs
    simp [removeEventsList, List.all_append, h1, h2]
end

/-- Every event a flush phase emits has the shape given by its
constructor argument. -/
lemma phaseEvents_shape (cond : Hook → Bool) (mk : Nat → Nat → PEvent)
    (P : PEvent → Bool) (hmk : ∀ i j, P (mk i j) = true) (fibers : List (List Hook)) :
    ((phaseEvents cond mk fibers).all P) = true := by
  rw [List.all_eq_true]
  intro e he
  simp only [phaseEvents, List.mem_flatMap, List.mem_filterMap, List.mem_range,
    Option.ite_none_right_eq_some, Option.some.injEq] at he
  obtain ⟨a, _, b, _, _, heq⟩ := he
  cases heq
  exact hmk a b

/-- Membership in a flush phase, characterized by the bounds and the
phase condition at the event's indices (for an injective event
constructor). -/
lemma mem_phaseEvents (cond : Hook → Bool) (mk : Nat → Nat → PEvent)
    (hinj : ∀ a b i j, mk a b = mk i j → a = i ∧ b = j)
    (fibers : List (List Hook)) (i j : Nat) :
    mk i j ∈ phaseEvents cond mk fibers ↔
      (i < fibers.length ∧ j < (fibers.getD i []).length ∧
        cond ((fibers.getD i []).getD j .other) = true) := by
  simp only [phaseEvents, List.mem_flatMap, List.mem_filterMap, List.mem_range,
    Option.ite_none_right_eq_some, Option.some.injEq]
  constructor
  · rintro ⟨a, ha, b, hb, hcond, heq⟩
    obtain ⟨hia, hjb⟩ := hinj a b i j heq
    subst hia
    subst hjb
    exact ⟨ha, hb, hcond⟩
  · rintro ⟨hi, hj, hc⟩
    exact ⟨i, hi, j, hj, hc, rfl⟩

/-! ## Claim theorems -/

/-- C1 counterexample: after mounting the keyed list [A,B,C] and
reconciling against [C,A,B], the keyed diff marks TWO nodes — A and B —
with the Placement bit and leaves C unmarked; the claim's "exactly one
node (C) marked Placement, A and B unmarked" is false on the code. -/
theorem C1_counterexample_two_moves_marked :
    reorderPass.chain.map Fiber.key
      = [some (.str "C"), some (.str "A"), some (.str "B")] ∧
    reorderPass.chain.map (fun f => f.hasFlag Flags.Placement) = [false, true, true] ∧
    (reorderPass.chain.filter (fun f => f.hasFlag Flags.Placement)).length = 2 := by
  decide

/-- C1 (amended): mounting the keyed 3-item list [A,B,C] and reconciling
against [C,A,B] (same keys, types, inputs) marks exactly the two nodes
A and B with Placement (each moved backward past the already-kept C,
whose original index advanced lastPlacedIndex to 2), leaves C unmarked,
sets no Update bits, records zero Deletions, and after commit the host
children appear in order C,A,B. -/
theorem C1_keyed_reorder_scenario :
    mountPass.hostOrder = [201, 202, 203] ∧
    mountPass.chain.map Fiber.key
      = [some (.str "A"), some (.str "B"), some (.str "C")] ∧
    reorderPass.chain.map Fiber.key
      = [some (.str "C"), some (.str "A"), some (.str "B")] ∧
    reorderPass.chain.map Fiber.stateNode = [some 203, some 201, some 202] ∧
    reorderPass.chain.map (fun f => f.hasFlag Flags.Placement) = [false, true, true] ∧
    reorderPass.chain.map (fun f => f.hasFlag Flags.Update) = [false, false, false] ∧
    reorderPass.deletions.length = 0 ∧
    reorderPass.hostOrder = [203, 201, 202] := by
  decide

/-- C2 counterexample: a list whose first entry is keyed and second is
not still selects keyed mode, refuting "keyed iff every child carries a
non-null key". -/
theorem C2_counterexample_mixed_list_keyed :
    reconcileMode mixedChildren = RMode.keyed ∧
    (mixedChildren.all Child.hasKey) = false := by
  decide

/-- C2 (amended): reconcileChildren selects keyed mode iff the new list
is non-empty, none of its entries is a plain text/number leaf, and at
least one (not necessarily every) entry carries a non-null key; in
every other case — including the empty list — it uses linear mode. -/
theorem C2_mode_selection (cs : List Child) :
    reconcileMode cs = RMode.keyed ↔
      (cs ≠ [] ∧ (∀ c ∈ cs, c.isText = false) ∧ (∃ c ∈ cs, c.hasKey = true)) := by
  have h1 : reconcileMode cs = RMode.keyed ↔ keyable cs = true := by
    unfold reconcileMode
    by_cases h : keyable cs <;> simp [h]
  rw [h1]
  unfold keyable
  simp [List.all_eq_true, List.any_eq_true, List.length_pos, Bool.not_eq_true',
    and_assoc]

/-- C9 counterexample: re-invoking an effect hook with deps `[NaN]`
against previous deps `[NaN]` — pairwise `Object.is`-equal — still
marks the hook changed, because the source compares with `!==` and
`NaN !== NaN`. -/
theorem C9_counterexample_nan_deps :
    pairwiseObjectIs [JSVal.nan] [JSVal.nan] = true ∧
    (updateEffectHook ⟨.passive, some [JSVal.nan], false, false, false⟩
      (some [JSVal.nan])).depsChanged = true := by
  decide

/-- C9 (amended): re-invoking an effect hook past its first run with a
dependency list of the same length whose elements are pairwise
strictly equal (`===`, not `Object.is`) leaves `depsChanged` false and
the hook is skipped by both flush passes of the following commit. -/
theorem C9_deps_idempotent (eff : EffData) (nd od : List JSVal)
    (hod : eff.deps = some od) (hlen : nd.length = od.length)
    (heq : ((nd.zip od).all fun p => strictEq p.1 p.2) = true)
    (hfr : eff.firstRun = false) :
    (updateEffectHook eff (some nd)).depsChanged = false ∧
    effectRunCond (updateEffectHook eff (some nd)) = false ∧
    passiveCreateCond (.effect (updateEffectHook eff (some nd))) = false ∧
    passiveDestroyCond (.effect (updateEffectHook eff (some nd))) = false := by
  have hch : (updateEffectHook eff (some nd)).depsChanged = false := by
    unfold updateEffectHook
    rw [hod]
    simp only [hlen, bne_self_eq_false, if_false, Bool.false_eq_true]
    rw [List.any_eq_false]
    intro p hp
    have := List.all_eq_true.mp heq p hp
    simp [this]
  have hrun : effectRunCond (updateEffectHook eff (some nd)) = false := by
    unfold effectRunCond
    rw [hch]
    have hfr2 : (updateEffectHook eff (some nd)).firstRun = eff.firstRun := by
      unfold updateEffectHook
      rfl
    rw [hfr2, hfr]
    rfl
  refine ⟨hch, hrun, ?_, ?_⟩
  · show ((updateEffectHook eff (some nd)).kind == EffKind.passive &&
        effectRunCond (updateEffectHook eff (some nd))) = false
    rw [hrun]
    simp
  · show ((updateEffectHook eff (some nd)).kind == EffKind.passive &&
        effectRunCond (updateEffectHook eff (some nd)) &&
        !(updateEffectHook eff (some nd)).firstRun &&
        (updateEffectHook eff (some nd)).hasDestroy) = false
    rw [hrun]
    simp

/-- C9 witness: a hook with deps `[1, "a"]` re-invoked with an
identical (strictly equal) list stays unchanged and is skipped in the
following flush. -/
theorem C9_deps_idempotent_witness :
    (updateEffectHook ⟨.passive, some [.num 1, .str "a"], true, false, false⟩
      (some [.num 1, .str "a"])).depsChanged = false ∧
    effectRunCond (updateEffectHook ⟨.passive, some [.num 1, .str "a"], true, false, false⟩
      (some [.num 1, .str "a"])) = false ∧
    passiveCreateCond (.effect (updateEffectHook
      ⟨.passive, some [.num 1, .str "a"], true, false, false⟩
      (some [.num 1, .str "a"]))) = false ∧
    passiveDestroyCond (.effect (updateEffectHook
      ⟨.passive, some [.num 1, .str "a"], true, false, false⟩
      (some [.num 1, .str "a"]))) = false :=
  C9_deps_idempotent _ [.num 1, .str "a"] [.num 1, .str "a"] rfl rfl (by decide) rfl

/-- C10: calling a useState setter with a next value (after applying a
functional updater) that is Object.is-equal to the current value is a
complete no-op — the stored value is unchanged and no
scheduleRootUpdate call is made, so no lane is merged and no render
pass is scheduled. -/
theorem C10_setState_noop (prev : JSVal) (u : Updater) (prio : Priority)
    (h : objectIs prev (applyUpdater u prev) = true) :
    (setStateImpl prev u prio).value = prev ∧
    (setStateImpl prev u prio).scheduleCalls = [] := by
  unfold setStateImpl
  simp [h]

/-- C10 witness: setting the same number 3 again schedules nothing. -/
theorem C10_setState_noop_witness :
    (setStateImpl (.num 3) (.value (.num 3)) .normal).value = JSVal.num 3 ∧
    (setStateImpl (.num 3) (.value (.num 3)) .normal).scheduleCalls = [] :=
  C10_setState_noop (.num 3) (.value (.num 3)) .normal (by decide)

/-- C3 counterexample: a reused child whose props excluding children
are unchanged (shallowEqualExceptChildren holds) still receives the
Update bit, because the Update comparison is a plain shallowEqual over
the wrapped props whose `children` entry compares the children array by
reference. -/
theorem C3_counterexample_children_entry_participates :
    shallowEqualExceptChildren oldDivWithChildren.memoizedProps
      (some (wrapProps newDivSameProps 50).1) = true ∧
    (linearStep (some oldDivWithChildren) newDivSameProps 50).1.hasFlag Flags.Update
      = true := by
  decide

/-- C3 (amended): for every reused child — keyed match or linear
positional match with equal type and key — the Update bit is set iff
the plain one-level shallowEqual of the previously committed props
against the wrapped new props fails; the wrapped props include a
`children` entry holding the new children array reference, so the
children collection does participate (by reference) in the
comparison. -/
theorem C3_update_marking (old : Fiber) (vtype : VType) (props : Option JSObj)
    (cid : Nat) (children : List Child) (key : Option JSVal) (fresh : Nat)
    (m : List (JSVal × Fiber × Nat)) (st : KeyedState) (k : JSVal) (oldIdx : Nat)
    (hty : old.ftype = some vtype) (hkey : keyEqB old.key key = true)
    (hget : mapGet m k = some (old, oldIdx)) :
    ((linearStep (some old) (.node vtype props cid children key) fresh).1.hasFlag
        Flags.Update
      = !shallowEqual old.memoizedProps
          (some (wrapProps (.node vtype props cid children key) fresh).1)) ∧
    (((keyedStep m st (.node vtype props cid children (some k))).chain.getLast?).map
        (fun f => f.hasFlag Flags.Update)
      = some (!shallowEqual old.memoizedProps
          (some (wrapProps (.node vtype props cid children (some k)) st.fresh).1))) := by
  constructor
  · have hb : (old.ftype == some vtype && keyEqB old.key key) = true := by
      rw [hty, hkey]
      simp
    simp only [linearStep, hb, if_true]
    by_cases hs : shallowEqual old.memoizedProps
        (some (wrapProps (.node vtype props cid children key) fresh).1) = true
    · simp [hs, Fiber.hasFlag, Fiber.flags]
    · rw [Bool.not_eq_true] at hs
      simp [hs, Fiber.hasFlag, Fiber.flags, Flags.Update]
  · have hb : (old.ftype == some vtype) = true := by
      rw [hty]
      simp
    simp only [keyedStep, hget, hb, if_true]
    by_cases hs : shallowEqual old.memoizedProps
        (some (wrapProps (.node vtype props cid children (some k)) st.fresh).1) = true
    · by_cases hlt : (oldIdx : Int) < st.lastPlacedIndex <;>
        simp [hs, hlt, List.getLast?_concat, Fiber.hasFlag, Fiber.flags,
          Flags.Placement, Flags.Update]
    · rw [Bool.not_eq_true] at hs
      by_cases hlt : (oldIdx : Int) < st.lastPlacedIndex <;>
        simp [hs, hlt, List.getLast?_concat, Fiber.hasFlag, Fiber.flags, Flags.Update,
          Flags.Placement]

/-- C3 witness: the amended Update rule applied to a concrete reused
div in both diff modes. -/
theorem C3_update_marking_witness :
    ((linearStep (some oldDivWithChildren) newDivSameProps 50).1.hasFlag Flags.Update
      = !shallowEqual oldDivWithChildren.memoizedProps
          (some (wrapProps newDivSameProps 50).1)) ∧
    (((keyedStep scratchOldMap scratchKeyedState keyedDivChild).chain.getLast?).map
        (fun f => f.hasFlag Flags.Update)
      = some (!shallowEqual oldDivWithChildren.memoizedProps
          (some (wrapProps keyedDivChild scratchKeyedState.fresh).1))) :=
  C3_update_marking oldDivWithChildren (.host "div") (some ⟨31, [("id", .str "x")]⟩)
    41 [.text "t"] none 50 scratchOldMap scratchKeyedState (.str "q") 0 rfl rfl rfl

/-- C4 counterexample: in linear mode a positional type mismatch
(div replaced by span) allocates a fresh Placement fiber and records
zero Deletions — the abandoned old div never appears in the effect
list, refuting "every old entry absent from the new list appears
exactly once with the Deletion bit". -/
theorem C4_counterexample_linear_replace_no_deletion :
    (reconcileChildren [oldDivPositional] [newSpanPositional] 70).2.1.length = 0 ∧
    (reconcileChildren [oldDivPositional] [newSpanPositional] 70).1.map Fiber.stateNode
      = [none] ∧
    (reconcileChildren [oldDivPositional] [newSpanPositional] 70).1.map Fiber.flags
      = [Flags.Placement] := by
  decide

/-- C4 (amended): the linear diff records Deletions exactly for the old
entries beyond the number of non-null new children (each exactly once,
in order, Deletion-marked); an old entry positionally replaced by a
mismatched new entry is abandoned without a Deletion record; the keyed
diff's Deletion records all carry the Deletion bit and a non-null key
(null-keyed old entries are never recorded); and commitDeletion runs
all effect cleanups of the deleted subtree strictly before its host
objects are removed. -/
theorem C4_deletion_records (olds : List Fiber) (cs : List Child) (fresh : Nat)
    (childFirst : Bool) (contained : Nat → Bool) (f : Fiber) :
    (reconcileLinear olds cs fresh).2.1
      = (olds.drop (cs.countP (fun c => !c.isNull))).map
          (fun g => g.orFlag Flags.Deletion) ∧
    ((reconcileKeyed olds cs fresh).2.1.all
      (fun g => g.hasFlag Flags.Deletion && g.key.isSome)) = true ∧
    commitDeletion childFirst contained f
      = cleanupEvents childFirst f ++ removeEvents contained f ∧
    ((cleanupEvents childFirst f).all (fun e => e == CommitEvent.cleanup)) = true ∧
    ((removeEvents contained f).all CommitEvent.isRemove) = true := by
  refine ⟨reconcileLinear_deletions cs olds fresh, ?_, rfl,
    cleanupEvents_all childFirst f, removeEvents_all contained f⟩
  rw [List.all_eq_true]
  intro g hg
  unfold reconcileKeyed keyedDeletions at hg
  rw [List.mem_map] at hg
  obtain ⟨e, he, heg⟩ := hg
  rw [List.mem_filter] at he
  have hk := buildOldKeyMap_key_isSome olds e he.1
  subst heg
  have h4 := orFlag_hasFlag e.2.1 Flags.Deletion (by decide)
  simp [h4, orFlag_key, hk]

/-- C5: for a function-component fiber whose alternate holds a memoized
props object shallow-equal to the pending props and that carries none
of Update/Placement/Deletion, updateFunctionComponent skips invoking
the component and clones the previous child chain verbatim: the clones
keep the same host object references, tags and keys, carry no flags
(so they contribute no effect-list entries), and their completion
emits no host events while a host object already exists. -/
theorem C5_bailout (fiber alt : Fiber) (m : JSObj) (render : Option JSObj → Child)
    (fresh : Nat)
    (h1 : alt.memoizedProps = some m)
    (h2 : shallowEqual alt.memoizedProps fiber.pendingProps = true)
    (h3 : fiber.flags &&& (Flags.Update ||| Flags.Placement ||| Flags.Deletion) = 0) :
    (updateFunctionComponent fiber (some alt) render fresh).invoked = false ∧
    (updateFunctionComponent fiber (some alt) render fresh).chain.map Fiber.stateNode
      = alt.children.map Fiber.stateNode ∧
    (updateFunctionComponent fiber (some alt) render fresh).chain.map Fiber.tag
      = alt.children.map Fiber.tag ∧
    (updateFunctionComponent fiber (some alt) render fresh).chain.map Fiber.key
      = alt.children.map Fiber.key ∧
    (updateFunctionComponent fiber (some alt) render fresh).chain.map Fiber.flags
      = List.replicate alt.children.length 0 ∧
    ((updateFunctionComponent fiber (some alt) render fresh).chain.all
      (fun g => !g.stateNode.isSome || (completeWork g 0).2.1.isEmpty)) = true := by
  have hres : updateFunctionComponent fiber (some alt) render fresh
      = ⟨false, cloneChildFibers alt.children, fresh⟩ := by
    have hcond : (alt.memoizedProps.isSome &&
        shallowEqual alt.memoizedProps fiber.pendingProps &&
        (fiber.flags &&& (Flags.Update ||| Flags.Placement ||| Flags.Deletion) == 0))
        = true := by
      rw [h2, h3, h1]
      simp
    simp [updateFunctionComponent, hcond]
  rw [hres]
  refine ⟨rfl, ?_, ?_, ?_, ?_, ?_⟩
  · simp [cloneChildFibers, List.map_map, Function.comp_def, clone_stateNode]
  · simp [cloneChildFibers, List.map_map, Function.comp_def, clone_tag]
  · simp [cloneChildFibers, List.map_map, Function.comp_def, clone_key]
  · simp [cloneChildFibers, List.map_map, Function.comp_def, clone_flags]
  · rw [List.all_eq_true]
    intro g hg
    rw [cloneChildFibers, List.mem_map] at hg
    obtain ⟨c, _, hcg⟩ := hg
    subst hcg
    exact completeWork_silent _ (clone_flags c)

/-- C5 witness: a concrete bailout over a one-child chain whose host
object 11 is preserved by the clone. -/
theorem C5_bailout_witness :
    (updateFunctionComponent
        (.mk .FunctionComponent (some (.fn 1)) none none none none (some ⟨2, []⟩) none 0 [] [])
        (some (.mk .FunctionComponent (some (.fn 1)) none none none (some ⟨0, []⟩) none none 0 []
          [.mk .HostComponent (some (.host "div")) none (some 11) none (some ⟨3, []⟩)
            (some ⟨3, []⟩) none 0 [] []]))
        (fun _ => Child.cnull) 0).invoked = false ∧
    (updateFunctionComponent
        (.mk .FunctionComponent (some (.fn 1)) none none none none (some ⟨2, []⟩) none 0 [] [])
        (some (.mk .FunctionComponent (some (.fn 1)) none none none (some ⟨0, []⟩) none none 0 []
          [.mk .HostComponent (some (.host "div")) none (some 11) none (some ⟨3, []⟩)
            (some ⟨3, []⟩) none 0 [] []]))
        (fun _ => Child.cnull) 0).chain.map Fiber.stateNode
      = [.mk .HostComponent (some (.host "div")) none (some 11) none (some ⟨3, []⟩)
            (some ⟨3, []⟩) none 0 [] []].map Fiber.stateNode ∧
    (updateFunctionComponent
        (.mk .FunctionComponent (some (.fn 1)) none none none none (some ⟨2, []⟩) none 0 [] [])
        (some (.mk .FunctionComponent (some (.fn 1)) none none none (some ⟨0, []⟩) none none 0 []
          [.mk .HostComponent (some (.host "div")) none (some 11) none (some ⟨3, []⟩)
            (some ⟨3, []⟩) none 0 [] []]))
        (fun _ => Child.cnull) 0).chain.map Fiber.tag
      = [.mk .HostComponent (some (.host "div")) none (some 11) none (some ⟨3, []⟩)
            (some ⟨3, []⟩) none 0 [] []].map Fiber.tag ∧
    (updateFunctionComponent
        (.mk .FunctionComponent (some (.fn 1)) none none none none (some ⟨2, []⟩) none 0 [] [])
        (some (.mk .FunctionComponent (some (.fn 1)) none none none (some ⟨0, []⟩) none none 0 []
          [.mk .HostComponent (some (.host "div")) none (some 11) none (some ⟨3, []⟩)
            (some ⟨3, []⟩) none 0 [] []]))
        (fun _ => Child.cnull) 0).chain.map Fiber.key
      = [.mk .HostComponent (some (.host "div")) none (some 11) none (some ⟨3, []⟩)
            (some ⟨3, []⟩) none 0 [] []].map Fiber.key ∧
    (updateFunctionComponent
        (.mk .FunctionComponent (some (.fn 1)) none none none none (some ⟨2, []⟩) none 0 [] [])
        (some (.mk .FunctionComponent (some (.fn 1)) none none none (some ⟨0, []⟩) none none 0 []
          [.mk .HostComponent (some (.host "div")) none (some 11) none (some ⟨3, []⟩)
            (some ⟨3, []⟩) none 0 [] []]))
        (fun _ => Child.cnull) 0).chain.map Fiber.flags
      = List.replicate
          ([.mk .HostComponent (some (.host "div")) none (some 11) none (some ⟨3, []⟩)
            (some ⟨3, []⟩) none 0 [] []] : List Fiber).length 0 ∧
    ((updateFunctionComponent
        (.mk .FunctionComponent (some (.fn 1)) none none none none (some ⟨2, []⟩) none 0 [] [])
        (some (.mk .FunctionComponent (some (.fn 1)) none none none (some ⟨0, []⟩) none none 0 []
          [.mk .HostComponent (some (.host "div")) none (some 11) none (some ⟨3, []⟩)
            (some ⟨3, []⟩) none 0 [] []]))
        (fun _ => Child.cnull) 0).chain.all
      (fun g => !g.stateNode.isSome || (completeWork g 0).2.1.isEmpty)) = true :=
  C5_bailout _ _ ⟨0, []⟩ (fun _ => Child.cnull) 0 rfl (by decide) (by decide)

/-- C7: when a commit leaves passive effects pending and no flush is
scheduled, commitRoot schedules exactly one deferred flush (and none
otherwise); the flush itself is the destroy pass over every pending
fiber followed by the create pass over every pending fiber — every
pending cleanup (a non-first-run changed hook with a recorded destroy)
appears in the destroy segment, every pending create (first-run or
changed passive hook) appears in the create segment, and the whole
trace is the destroy segment followed by the create segment, never
interleaved per component. -/
theorem C7_passive_flush (fibers : List (List Hook)) (pending scheduled : Bool) :
    (commitRootPassiveScheduling pending scheduled).1
      = (if pending && !scheduled then 1 else 0) ∧
    (commitRootPassiveScheduling pending scheduled).2 = (scheduled || pending) ∧
    flushPassiveEffects fibers
      = phaseEvents passiveDestroyCond PEvent.destroy fibers ++
        phaseEvents passiveCreateCond PEvent.create fibers ∧
    ((phaseEvents passiveDestroyCond PEvent.destroy fibers).all PEvent.isDestroy) = true ∧
    ((phaseEvents passiveCreateCond PEvent.create fibers).all PEvent.isCreate) = true ∧
    (∀ i j : Nat, PEvent.destroy i j ∈ flushPassiveEffects fibers ↔
      (i < fibers.length ∧ j < (fibers.getD i []).length ∧
        passiveDestroyCond ((fibers.getD i []).getD j .other) = true)) ∧
    (∀ i j : Nat, PEvent.create i j ∈ flushPassiveEffects fibers ↔
      (i < fibers.length ∧ j < (fibers.getD i []).length ∧
        passiveCreateCond ((fibers.getD i []).getD j .other) = true)) := by
  have hflush : flushPassiveEffects fibers
      = phaseEvents passiveDestroyCond PEvent.destroy fibers ++
        phaseEvents passiveCreateCond PEvent.create fibers := by
    unfold flushPassiveEffects
    by_cases he : fibers.isEmpty
    · rw [if_pos he]
      rw [List.isEmpty_iff] at he
      subst he
      rfl
    · rw [if_neg he]
  have hdall := phaseEvents_shape passiveDestroyCond PEvent.destroy PEvent.isDestroy
    (fun _ _ => rfl) fibers
  have hcall := phaseEvents_shape passiveCreateCond PEvent.create PEvent.isCreate
    (fun _ _ => rfl) fibers
  refine ⟨?_, ?_, hflush, hdall, hcall, ?_, ?_⟩
  · cases pending <;> cases scheduled <;> rfl
  · cases pending <;> cases scheduled <;> rfl
  · intro i j
    rw [hflush, List.mem_append]
    have hmem := mem_phaseEvents passiveDestroyCond PEvent.destroy
      (fun a b i j h => by cases h; exact ⟨rfl, rfl⟩) fibers i j
    rw [hmem]
    constructor
    · rintro (h | h)
      · exact h
      · exfalso
        have := List.all_eq_true.mp hcall _ h
        simp [PEvent.isCreate] at this
    · exact fun h => Or.inl h
  · intro i j
    rw [hflush, List.mem_append]
    have hmem := mem_phaseEvents passiveCreateCond PEvent.create
      (fun a b i j h => by cases h; exact ⟨rfl, rfl⟩) fibers i j
    rw [hmem]
    constructor
    · rintro (h | h)
      · exfalso
        have := List.all_eq_true.mp hdall _ h
        simp [PEvent.isDestroy] at this
      · exact h
    · exact fun h => Or.inr h

/-- C8 counterexample: completeWork — a render-phase function — writes
the text content of a reused text fiber's host node (node 5, part of
the committed host tree) in place, refuting "no text-content write is
performed on an attached host object outside the commit phase". -/
theorem C8_counterexample_render_text_write :
    reusedTextFiber.stateNode = some 5 ∧
    (completeWork reusedTextFiber 100).2.1 = [HostEvent.writeText 5 "new"] ∧
    HostEvent.isWrite (HostEvent.writeText 5 "new") = true := by
  decide

/-- C8 (amended): every write event completeWork emits during the render
phase either targets the host object it just created in the same call
(the fiber had no stateNode, and the write is the initial attribute
application on the detached fresh node) or is the single in-place
text-content write of a reused text leaf carrying the Update bit; host
elements with an existing host object receive no render-phase writes;
insertions and removals are never emitted by completeWork. -/
theorem C8_render_phase_writes (f : Fiber) (k : Nat) :
    ((completeWork f k).2.1.all (fun e =>
      !e.isWrite ||
      (e.target == k && f.stateNode == none) ||
      (f.tag == FTag.Text && f.hasFlag Flags.Update && f.stateNode == some e.target)))
      = true := by
  cases f with
  | mk t ty kk s d m p pt fl hooks cs =>
    cases t with
    | Text =>
      cases s with
      | none => simp [completeWork, HostEvent.isWrite]
      | some n =>
        by_cases hu : fl &&& Flags.Update = 0
        · simp [completeWork, hu]
        · simp [completeWork, hu, HostEvent.isWrite, HostEvent.target,
            Fiber.hasFlag, Fiber.flags, Fiber.stateNode, Fiber.tag]
    | HostComponent =>
      cases s with
      | none =>
        simp [completeWork, HostEvent.isWrite, HostEvent.target, Fiber.stateNode]
      | some n => simp [completeWork]
    | HostRoot => simp [completeWork]
    | FunctionComponent => simp [completeWork]
    | Fragment => simp [completeWork]

end ReactMini
